import Mathlib

/-!
Verification development for the contact-resolution engine of the repository
(src/utils/contacts.ts and src/utils/ValidationUtils.ts), shallowly embedded
in Lean.  Strings are lists of characters, JS numbers used for scores are
rationals, the TTL cache for the single key `allContacts` is an
`Option ContactsData` (the `ContactCache` module itself is not part of the
sources; its `get`/`set` contract is modelled from the spec, section 4.3),
and the external AppleScript/JXA world is an explicit oracle.  Stateful
functions return their result together with the list of cache/external
events they perform, in order.
-/

deriving instance DecidableEq for Except

/-- `s.map Char.toLower`, the embedding of JS `toLowerCase()`. -/
def lowerStr (s : List Char) : List Char := s.map Char.toLower

/-- Embedding of JS `String.prototype.trim`. -/
def jsTrim (s : List Char) : List Char :=
  (((s.dropWhile Char.isWhitespace).reverse).dropWhile Char.isWhitespace).reverse

/-- Embedding of JS `hay.includes(needle)`. -/
def containsSub (hay needle : List Char) : Bool :=
  if needle.isPrefixOf hay then true
  else
    match hay with
    | [] => false
    | _ :: t => containsSub t needle

/-- Negation of `Char.isWhitespace`, the token predicate of `split(/\s+/)`. -/
def notWsB (c : Char) : Bool := !c.isWhitespace

lemma dropWhile_len_le (p : Char → Bool) : ∀ l : List Char, (l.dropWhile p).length ≤ l.length
  | [] => Nat.le_refl _
  | c :: l => by
      rw [List.dropWhile_cons]
      split
      · exact Nat.le_trans (dropWhile_len_le p l) (Nat.le_succ _)
      · exact Nat.le_refl _

/-- Fuel-indexed splitter behind `splitWs`; structural in the fuel so that it
evaluates inside the kernel.  With fuel at least `s.length + 1` the fuel never
runs out (each step removes at least one character). -/
def splitWsF : Nat → List Char → List (List Char)
  | 0, s => [s.takeWhile notWsB]
  | f + 1, s =>
    match s.dropWhile notWsB with
    | [] => [s.takeWhile notWsB]
    | _ :: tail => s.takeWhile notWsB :: splitWsF f (tail.dropWhile Char.isWhitespace)

/-- Embedding of JS `text.split(/\s+/)`: split at maximal whitespace runs,
keeping the (possibly empty) leading and trailing pieces. -/
def splitWs (s : List Char) : List (List Char) := splitWsF (s.length + 1) s

/-- First-occurrence deduplication with an accumulator of already seen
elements; `dedupFirstAux l []` is the embedding of JS `[...new Set(l)]`. -/
def dedupFirstAux {α : Type} [DecidableEq α] : List α → List α → List α
  | [], _ => []
  | a :: l, seen => if a ∈ seen then dedupFirstAux l seen else a :: dedupFirstAux l (a :: seen)

/-- Embedding of JS `[...new Set(l)]`: keep the first occurrence of each element. -/
def dedupFirst {α : Type} [DecidableEq α] (l : List α) : List α := dedupFirstAux l []

/-- `l₁` is a prefix of `l₂` (semantic counterpart of `isPrefixOf`). -/
def preOf (l₁ l₂ : List Char) : Prop := ∃ t, l₁ ++ t = l₂

/-- `l₁` is a suffix of `l₂`. -/
def sufOf (l₁ l₂ : List Char) : Prop := ∃ u, u ++ l₁ = l₂

/-- `l₁` occurs contiguously inside `l₂` (semantic counterpart of `includes`). -/
def subOf (l₁ l₂ : List Char) : Prop := ∃ u v, u ++ l₁ ++ v = l₂

lemma isPrefixOf_eq : ∀ (l₁ l₂ : List Char), l₁.isPrefixOf l₂ = true ↔ preOf l₁ l₂
  | [], l₂ => by
      simp only [List.isPrefixOf, preOf, List.nil_append, true_iff]
      exact ⟨l₂, rfl⟩
  | a :: l₁, [] => by
      refine iff_of_false (by simp [List.isPrefixOf]) ?_
      rintro ⟨t, h⟩
      exact List.cons_ne_nil a (l₁ ++ t) h
  | a :: l₁, b :: l₂ => by
      simp only [List.isPrefixOf, Bool.and_eq_true, beq_iff_eq, isPrefixOf_eq l₁ l₂, preOf]
      constructor
      · rintro ⟨rfl, t, rfl⟩
        exact ⟨t, rfl⟩
      · rintro ⟨t, h⟩
        rw [List.cons_append] at h
        obtain ⟨rfl, h2⟩ := List.cons.inj h
        exact ⟨rfl, t, h2⟩

lemma containsSub_eq : ∀ (hay needle : List Char), containsSub hay needle = true ↔ subOf needle hay
  | hay, needle => by
      rw [containsSub.eq_def]
      split
      · next hp =>
          simp only [true_iff]
          obtain ⟨t, rfl⟩ := (isPrefixOf_eq needle hay).mp hp
          exact ⟨[], t, rfl⟩
      · next hp =>
          match hay with
          | [] =>
              refine iff_of_false (by simp) ?_
              rintro ⟨u, v, h⟩
              rcases List.append_eq_nil.mp h with ⟨h1, h2⟩
              rcases List.append_eq_nil.mp h1 with ⟨rfl, rfl⟩
              exact hp (by simp [List.isPrefixOf])
          | c :: t =>
              rw [containsSub_eq t needle]
              constructor
              · rintro ⟨u, v, rfl⟩
                exact ⟨c :: u, v, rfl⟩
              · rintro ⟨u, v, h⟩
                match u with
                | [] =>
                    exfalso
                    exact hp ((isPrefixOf_eq needle (c :: t)).mpr ⟨v, by simpa using h⟩)
                | _ :: u' =>
                    rw [List.cons_append, List.cons_append] at h
                    obtain ⟨-, h2⟩ := List.cons.inj h
                    exact ⟨u', v, h2⟩

lemma subOf_of_preOf {a w : List Char} (h : preOf a w) : subOf a w := by
  obtain ⟨t, rfl⟩ := h
  exact ⟨[], t, rfl⟩

lemma subOf_of_preOf_subOf {a w s : List Char} (h1 : preOf a w) (h2 : subOf w s) : subOf a s := by
  obtain ⟨t, rfl⟩ := h1
  obtain ⟨u, v, rfl⟩ := h2
  exact ⟨u, t ++ v, by simp⟩

lemma subOf_of_subOf_sufOf {a w s : List Char} (h1 : subOf a w) (h2 : sufOf w s) : subOf a s := by
  obtain ⟨u, v, rfl⟩ := h1
  obtain ⟨x, rfl⟩ := h2
  exact ⟨x ++ u, v, by simp⟩

lemma sufOf_dropWhile (p : Char → Bool) (l : List Char) : sufOf (l.dropWhile p) l :=
  ⟨l.takeWhile p, l.takeWhile_append_dropWhile p⟩

lemma preOf_takeWhile (p : Char → Bool) (l : List Char) : preOf (l.takeWhile p) l :=
  ⟨l.dropWhile p, l.takeWhile_append_dropWhile p⟩

lemma splitWsF_subOf : ∀ (f : Nat) (s : List Char), ∀ w ∈ splitWsF f s, subOf w s
  | 0, s => by
      intro w hw
      simp only [splitWsF, List.mem_singleton] at hw
      subst hw
      exact subOf_of_preOf (preOf_takeWhile notWsB s)
  | f + 1, s => by
      intro w hw
      rw [splitWsF] at hw
      split at hw
      · next heq =>
          simp only [List.mem_singleton] at hw
          subst hw
          exact subOf_of_preOf (preOf_takeWhile notWsB s)
      · next c tail heq =>
          rcases List.mem_cons.mp hw with rfl | hw'
          · exact subOf_of_preOf (preOf_takeWhile notWsB s)
          · have hsub : subOf w (tail.dropWhile Char.isWhitespace) :=
              splitWsF_subOf f (tail.dropWhile Char.isWhitespace) w hw'
            have hs1 : sufOf (tail.dropWhile Char.isWhitespace) tail :=
              sufOf_dropWhile Char.isWhitespace tail
            have hs2 : sufOf tail s := by
              have hds := sufOf_dropWhile notWsB s
              rw [heq] at hds
              obtain ⟨u, hu⟩ := hds
              exact ⟨u ++ [c], by simpa using hu⟩
            exact subOf_of_subOf_sufOf (subOf_of_subOf_sufOf hsub hs1) hs2

/-- Every token produced by `splitWs` occurs contiguously in the input. -/
lemma splitWs_subOf (s : List Char) : ∀ w ∈ splitWs s, subOf w s :=
  splitWsF_subOf (s.length + 1) s

lemma mem_dedupFirstAux {α : Type} [DecidableEq α] :
    ∀ (l seen : List α) (x : α), x ∈ dedupFirstAux l seen ↔ x ∈ l ∧ x ∉ seen
  | [], seen, x => by simp [dedupFirstAux]
  | a :: l, seen, x => by
      rw [dedupFirstAux]
      by_cases ha : a ∈ seen
      · rw [if_pos ha, mem_dedupFirstAux l seen x]
        constructor
        · rintro ⟨h1, h2⟩
          exact ⟨List.mem_cons_of_mem a h1, h2⟩
        · rintro ⟨h1, h2⟩
          rcases List.mem_cons.mp h1 with rfl | h1
          · exact absurd ha h2
          · exact ⟨h1, h2⟩
      · rw [if_neg ha]
        constructor
        · intro hmem
          rcases List.mem_cons.mp hmem with rfl | hmem'
          · exact ⟨List.mem_cons_self x l, ha⟩
          · obtain ⟨h1, h2⟩ := (mem_dedupFirstAux l (a :: seen) x).mp hmem'
            exact ⟨List.mem_cons_of_mem a h1, fun hx => h2 (List.mem_cons_of_mem a hx)⟩
        · rintro ⟨h1, h2⟩
          rcases List.mem_cons.mp h1 with rfl | h1
          · exact List.mem_cons_self x _
          · by_cases hxa : x = a
            · subst hxa
              exact List.mem_cons_self x _
            · refine List.mem_cons_of_mem a ((mem_dedupFirstAux l (a :: seen) x).mpr ⟨h1, ?_⟩)
              intro hx
              rcases List.mem_cons.mp hx with h | h
              · exact hxa h
              · exact h2 h

lemma mem_dedupFirst {α : Type} [DecidableEq α] (l : List α) (x : α) :
    x ∈ dedupFirst l ↔ x ∈ l := by
  rw [dedupFirst, mem_dedupFirstAux]
  simp

lemma nodup_dedupFirstAux {α : Type} [DecidableEq α] :
    ∀ (l seen : List α), (dedupFirstAux l seen).Nodup
  | [], _ => List.nodup_nil
  | a :: l, seen => by
      rw [dedupFirstAux]
      split
      · exact nodup_dedupFirstAux l seen
      · refine List.nodup_cons.mpr ⟨?_, nodup_dedupFirstAux l (a :: seen)⟩
        intro hmem
        exact ((mem_dedupFirstAux l (a :: seen) a).mp hmem).2 (List.mem_cons_self a seen)

lemma nodup_dedupFirst {α : Type} [DecidableEq α] (l : List α) : (dedupFirst l).Nodup :=
  nodup_dedupFirstAux l []

/-! ## FuzzyMatcher: `calculateFuzzyScore` (src/utils/contacts.ts, lines 254-289) -/

/-- The word loop of `calculateFuzzyScore`: for each whitespace-delimited
word in order, return 0.8 if the word starts with the search term, else 0.6
if it contains it, else move on; `none` when no word matches. -/
def wordLoopScore (search : List Char) : List (List Char) → Option ℚ
  | [] => none
  | w :: ws =>
    if search.isPrefixOf w then some (8/10)
    else if containsSub w search then some (6/10)
    else wordLoopScore search ws

/-- The greedy in-order character matching loop of `calculateFuzzyScore`:
number of search characters matched scanning the text left to right. -/
def subseqCount : List Char → List Char → Nat
  | _, [] => 0
  | [], _ :: _ => 0
  | t :: ts, s :: ss => if t = s then 1 + subseqCount ts ss else subseqCount ts (s :: ss)

/-- Embedding of `calculateFuzzyScore(searchTerm, target)`. -/
def calculateFuzzyScore (searchTerm target : List Char) : ℚ :=
  let search := lowerStr searchTerm
  let text := lowerStr target
  if search = text then 1
  else if search.isPrefixOf text then 9/10
  else if containsSub text search then 7/10
  else
    match wordLoopScore search (splitWs text) with
    | some q => q
    | none =>
      let m := subseqCount text search
      if m = search.length then (1/2) * ((m : ℚ) / (text.length : ℚ)) else 0

lemma wordLoopScore_eq_none {q : List Char} :
    ∀ {ws : List (List Char)},
      (∀ w ∈ ws, q.isPrefixOf w = false ∧ containsSub w q = false) →
      wordLoopScore q ws = none
  | [], _ => rfl
  | w :: ws, h => by
      have hw := h w (List.mem_cons_self w ws)
      rw [wordLoopScore, if_neg (by simp [hw.1]), if_neg (by simp [hw.2])]
      exact wordLoopScore_eq_none fun w' hw' => h w' (List.mem_cons_of_mem w hw')

/-! ## Claims C5, C6, C9 about `calculateFuzzyScore` -/

/-- C5 counterexample: the claim says that when the lowercased target is not
equal to and does not start with the query but some whitespace-delimited word
of the target starts with the query, the score is 0.8.  At query `"do"`,
target `"john doe"` all those conditions hold, yet the code returns 0.7,
because the substring rule (`includes`, 0.7) is checked before the word loop. -/
theorem c5_counterexample :
    (lowerStr "do".toList ≠ lowerStr "john doe".toList) ∧
    (lowerStr "do".toList).isPrefixOf (lowerStr "john doe".toList) = false ∧
    ("doe".toList ∈ splitWs (lowerStr "john doe".toList) ∧
      (lowerStr "do".toList).isPrefixOf "doe".toList = true) ∧
    calculateFuzzyScore "do".toList "john doe".toList = 7/10 ∧
    calculateFuzzyScore "do".toList "john doe".toList ≠ 8/10 := by
  have hv : calculateFuzzyScore "do".toList "john doe".toList = 7/10 := by
    simp only [calculateFuzzyScore]
    rw [if_neg (by decide), if_neg (by decide), if_pos (by decide)]
  refine ⟨by decide, by decide, ⟨by decide, by decide⟩, hv, ?_⟩
  rw [hv]
  norm_num

/-- C5 (amended): if, after lowercasing, the target is not equal to the query
and does not start with the query, but some whitespace-delimited word of the
target starts with the query, then `score(query, target) = 0.7`: a word
starting with the query makes the target contain the query as a substring,
and the substring rule (0.7) is evaluated before the word-prefix rule, so the
0.8 branch is unreachable. -/
theorem c5_amended (q t : List Char)
    (h1 : lowerStr q ≠ lowerStr t)
    (h2 : (lowerStr q).isPrefixOf (lowerStr t) = false)
    (h3 : ∃ w ∈ splitWs (lowerStr t), (lowerStr q).isPrefixOf w = true) :
    calculateFuzzyScore q t = 7/10 := by
  obtain ⟨w, hw, hpre⟩ := h3
  have hc : containsSub (lowerStr t) (lowerStr q) = true :=
    (containsSub_eq _ _).mpr
      (subOf_of_preOf_subOf ((isPrefixOf_eq _ _).mp hpre) (splitWs_subOf _ w hw))
  simp only [calculateFuzzyScore]
  rw [if_neg h1, if_neg (by simp [h2]), if_pos hc]

/-- Concrete instance of `c5_amended` at query `"do"`, target `"john doe"`. -/
theorem c5_witness : calculateFuzzyScore "do".toList "john doe".toList = 7/10 :=
  c5_amended "do".toList "john doe".toList (by decide) (by decide)
    ⟨"doe".toList, by decide, by decide⟩

/-- C9 counterexample: the claim says that whenever `s2` starts with `s1`
case-insensitively and `s1 ≠ s2`, the score is 0.9.  At `s1 = "A"`,
`s2 = "a"` both hypotheses hold (the raw strings differ), yet after
lowercasing the strings are equal, so the exact-match rule fires first and
the score is 1.0. -/
theorem c9_counterexample :
    (lowerStr ['A']).isPrefixOf (lowerStr ['a']) = true ∧
    (['A'] : List Char) ≠ ['a'] ∧
    calculateFuzzyScore ['A'] ['a'] = 1 ∧
    calculateFuzzyScore ['A'] ['a'] ≠ 9/10 := by
  have hv : calculateFuzzyScore ['A'] ['a'] = 1 := by
    simp only [calculateFuzzyScore]
    rw [if_pos (by decide)]
  refine ⟨by decide, by decide, hv, ?_⟩
  rw [hv]
  norm_num

/-- C9 (amended): if `s2` starts with `s1` case-insensitively and the two
strings are still different after lowercasing, then `score(s1, s2) = 0.9`.
(The original claim's `s1 ≠ s2` on the raw strings is not enough: strings
differing only in case hit the exact-match rule and score 1.0.) -/
theorem c9_amended (s1 s2 : List Char)
    (hpre : (lowerStr s1).isPrefixOf (lowerStr s2) = true)
    (hne : lowerStr s1 ≠ lowerStr s2) :
    calculateFuzzyScore s1 s2 = 9/10 := by
  simp only [calculateFuzzyScore]
  rw [if_neg hne, if_pos hpre]

/-- Concrete instance of `c9_amended` at `s1 = "jo"`, `s2 = "john"`. -/
theorem c9_witness : calculateFuzzyScore "jo".toList "john".toList = 9/10 :=
  c9_amended "jo".toList "john".toList (by decide) (by decide)

/-- C6 counterexample: the claim says the fall-through in-order character
match scores `0.3 * (query length / target length)`.  At query `"ac"`,
target `"abc"` no earlier rule applies and the full query is matched in
order, but the code returns `0.5 * (2/3) = 1/3`, not `0.3 * (2/3) = 1/5`:
the coefficient in the code is 0.5, not 0.3. -/
theorem c6_counterexample :
    (lowerStr "ac".toList ≠ lowerStr "abc".toList) ∧
    (lowerStr "ac".toList).isPrefixOf (lowerStr "abc".toList) = false ∧
    containsSub (lowerStr "abc".toList) (lowerStr "ac".toList) = false ∧
    (∀ w ∈ splitWs (lowerStr "abc".toList),
      (lowerStr "ac".toList).isPrefixOf w = false ∧
      containsSub w (lowerStr "ac".toList) = false) ∧
    subseqCount (lowerStr "abc".toList) (lowerStr "ac".toList) = ("ac".toList).length ∧
    calculateFuzzyScore "ac".toList "abc".toList = 1/3 ∧
    calculateFuzzyScore "ac".toList "abc".toList ≠
      (3/10) * ((("ac".toList).length : ℚ) / (("abc".toList).length : ℚ)) := by
  have hv : calculateFuzzyScore "ac".toList "abc".toList = 1/3 := by
    simp only [calculateFuzzyScore]
    rw [if_neg (by decide), if_neg (by decide), if_neg (by decide),
      wordLoopScore_eq_none (by decide)]
    show (if subseqCount (lowerStr "abc".toList) (lowerStr "ac".toList) =
            (lowerStr "ac".toList).length
          then (1/2) * ((subseqCount (lowerStr "abc".toList) (lowerStr "ac".toList) : ℚ) /
            ((lowerStr "abc".toList).length : ℚ))
          else 0) = 1/3
    rw [if_pos (by decide),
      show subseqCount (lowerStr "abc".toList) (lowerStr "ac".toList) = 2 from by decide,
      show (lowerStr "abc".toList).length = 3 from by decide]
    norm_num
  refine ⟨by decide, by decide, by decide, by decide, by decide, hv, ?_⟩
  rw [hv]
  norm_num

/-- C6 (amended): when no exact-match, prefix, substring, word-prefix or
word-substring rule applies, the score is `0.5 * (query length / target
length)` if the greedy in-order scan matches the whole query, and 0
otherwise.  (The coefficient in the code is 0.5, not the 0.3 stated by the
claim.) -/
theorem c6_amended (q t : List Char)
    (h1 : lowerStr q ≠ lowerStr t)
    (h2 : (lowerStr q).isPrefixOf (lowerStr t) = false)
    (h3 : containsSub (lowerStr t) (lowerStr q) = false)
    (h4 : ∀ w ∈ splitWs (lowerStr t),
      (lowerStr q).isPrefixOf w = false ∧ containsSub w (lowerStr q) = false) :
    calculateFuzzyScore q t =
      if subseqCount (lowerStr t) (lowerStr q) = q.length
      then (1/2) * ((q.length : ℚ) / (t.length : ℚ))
      else 0 := by
  simp only [calculateFuzzyScore]
  rw [if_neg h1, if_neg (by simp [h2]), if_neg (by simp [h3]), wordLoopScore_eq_none h4]
  show (if subseqCount (lowerStr t) (lowerStr q) = (lowerStr q).length
        then (1/2) * ((subseqCount (lowerStr t) (lowerStr q) : ℚ) /
          ((lowerStr t).length : ℚ))
        else 0) = _
  have hq : (lowerStr q).length = q.length := by simp [lowerStr]
  have ht : (lowerStr t).length = t.length := by simp [lowerStr]
  rw [hq, ht]
  by_cases hm : subseqCount (lowerStr t) (lowerStr q) = q.length
  · rw [if_pos hm, if_pos hm, hm]
  · rw [if_neg hm, if_neg hm]

/-- Concrete instance of `c6_amended` at query `"ac"`, target `"abc"`
(full-query branch) packaged with the score value `1/2 * 2/3 = 1/3`. -/
theorem c6_witness :
    calculateFuzzyScore "ac".toList "abc".toList =
      if subseqCount (lowerStr "abc".toList) (lowerStr "ac".toList) = ("ac".toList).length
      then (1/2) * ((("ac".toList).length : ℚ) / (("abc".toList).length : ℚ))
      else 0 :=
  c6_amended "ac".toList "abc".toList (by decide) (by decide) (by decide) (by decide)

/-! ## Data model and ValidationUtils (src/utils/ValidationUtils.ts) -/

/-- A contact record as produced by the contacts module. -/
structure ContactInfo where
  name : List Char
  phones : List (List Char)
  emails : List (List Char)
  addresses : List (List Char)
deriving DecidableEq

/-- The `allContacts` snapshot: an insertion-ordered map from name to record
(`Object.entries` order). -/
abbrev ContactsData := List (List Char × ContactInfo)

/-- The control characters rejected by `validateContactName`
(regex `[\x00-\x08\x0B\x0C\x0E-\x1F\x7F]`). -/
def isBadControl (c : Char) : Bool :=
  c.toNat ≤ 8 || c.toNat = 11 || c.toNat = 12 ||
    (14 ≤ c.toNat && c.toNat ≤ 31) || c.toNat = 127

/-- Embedding of `validateContactName` (ValidationUtils.ts, lines 10-34). -/
def validateContactName (name : List Char) : Except String (List Char) :=
  let trimmed := jsTrim name
  if trimmed = [] then Except.error "Contact name cannot be empty"
  else if 200 < trimmed.length then
    Except.error "Contact name is too long (maximum 200 characters)"
  else if trimmed.any isBadControl then
    Except.error "Contact name contains invalid control characters"
  else Except.ok trimmed

/-- The characters accepted by `validatePhoneNumber`
(regex `^[+\d\-\(\)\s\.]+$`). -/
def isPhoneChar (c : Char) : Bool :=
  c = '+' || c.isDigit || c = '-' || c = '(' || c = ')' || c.isWhitespace || c = '.'

/-- Embedding of `validatePhoneNumber` (ValidationUtils.ts, lines 41-63). -/
def validatePhoneNumber (phoneNumber : List Char) : Except String (List Char) :=
  let trimmed := jsTrim phoneNumber
  if trimmed = [] then Except.error "Phone number cannot be empty"
  else if trimmed.all isPhoneChar = false then
    Except.error "Phone number contains invalid characters"
  else if 30 < trimmed.length then
    Except.error "Phone number is too long (maximum 30 characters)"
  else Except.ok trimmed

/-- A character allowed inside the pieces of the email regex
`^[^\s@]+@[^\s@]+\.[^\s@]+$`: anything but whitespace and `@`. -/
def emailPieceChar (c : Char) : Bool := !c.isWhitespace && !(c = '@')

/-- Decision procedure for the email regex `^[^\s@]+@[^\s@]+\.[^\s@]+$`: the
string is `a ++ "@" ++ t` where `a` is nonempty, `a` and `t` contain neither
whitespace nor `@`, and `t` has a `.` that is neither its first nor its last
character (the regex pieces around the dot may themselves contain dots). -/
def isEmailLike (s : List Char) : Bool :=
  let a := s.takeWhile (fun c => !(c = '@'))
  match s.dropWhile (fun c => !(c = '@')) with
  | [] => false
  | _ :: t =>
    !(a = []) && a.all emailPieceChar && t.all emailPieceChar &&
      ((t.drop 1).dropLast.any (fun c => c = '.'))

/-- Embedding of `validateEmail` (ValidationUtils.ts, lines 70-92). -/
def validateEmail (email : List Char) : Except String (List Char) :=
  let trimmed := jsTrim email
  if trimmed = [] then Except.error "Email address cannot be empty"
  else if isEmailLike trimmed = false then
    Except.error "Email address format is invalid"
  else if 254 < trimmed.length then
    Except.error "Email address is too long (maximum 254 characters)"
  else Except.ok trimmed

/-! ## PhoneNormalizer: `normalizePhoneNumber` (contacts.ts, lines 435-458),
claim C4 -/

/-- Embedding of `replace(/[^0-9+]/g, '')`: keep digits and every `+`. -/
def stripPhone (s : List Char) : List Char := s.filter (fun c => c.isDigit || c = '+')

/-- Embedding of `normalizePhoneNumber` (contacts.ts, lines 435-458). -/
def normalizePhoneNumber (phoneNumber : List Char) : List (List Char) :=
  let cleaned := stripPhone phoneNumber
  let formats1 := [cleaned]
  let formats2 :=
    if ['+', '1'].isPrefixOf cleaned = true then formats1 ++ [cleaned.drop 2] else formats1
  let formats3 :=
    if ['+'].isPrefixOf cleaned = false ∧ cleaned.length = 10 then
      formats2 ++ ['+' :: '1' :: cleaned]
    else formats2
  let formats4 :=
    if ['+'].isPrefixOf cleaned = false ∧ 0 < cleaned.length then
      formats3 ++ ['+' :: cleaned]
    else formats3
  dedupFirst formats4

/-- Modelled from the claim's words (claim C4 / spec section 4.1, step 1):
"strip every character except digits and a leading `+`" — digits are kept,
and a `+` is kept only when the raw string begins with it. -/
def specStrip (raw : List Char) : List Char :=
  match raw with
  | '+' :: rest => '+' :: rest.filter Char.isDigit
  | _ => raw.filter Char.isDigit

/-- Modelled from the claim's words (claim C4 / spec section 4.1, steps 1-5):
the deduplicated set of emitted forms, with the `+1`-stripping step gated on
length 12 and steps 4-5 gated on the absence of any `+`. -/
def specNormalizeClaim (raw : List Char) : List (List Char) :=
  let c := specStrip raw
  dedupFirst
    ((([c] ++
      (if ['+', '1'].isPrefixOf c = true ∧ c.length = 12 then [c.drop 2] else [])) ++
      (if ('+' ∉ c) ∧ c.length = 10 then ['+' :: '1' :: c] else [])) ++
      (if ('+' ∉ c) ∧ 0 < c.length then ['+' :: c] else []))

/-- The emission list actually produced by the code before deduplication:
stripped form; plus the form without the leading `+1` whenever the stripped
form starts with `+1` (no length condition); plus the `+1`-prefixed form when
the stripped form does not start with `+` and has exactly 10 characters; plus
the `+`-prefixed form when the stripped form does not start with `+` and is
nonempty. -/
def phoneFormsEmitted (raw : List Char) : List (List Char) :=
  let c := stripPhone raw
  (([c] ++
    (if ['+', '1'].isPrefixOf c = true then [c.drop 2] else [])) ++
    (if ['+'].isPrefixOf c = false ∧ c.length = 10 then ['+' :: '1' :: c] else [])) ++
    (if ['+'].isPrefixOf c = false ∧ 0 < c.length then ['+' :: c] else [])

/-- C4 counterexample: the claim gates the `+1`-stripping step on the
stripped form having length 12, but the code strips the `+1` prefix
unconditionally.  For raw input `"+1234"` the code emits `"234"` while the
claim's five-step algorithm does not. -/
theorem c4_counterexample :
    "234".toList ∈ normalizePhoneNumber "+1234".toList ∧
    "234".toList ∉ specNormalizeClaim "+1234".toList := by
  constructor
  · decide
  · decide

/-- C4 (amended): `normalize(raw)` is a duplicate-free list whose members are
exactly the emitted forms of `phoneFormsEmitted`: the stripped form keeps
every digit and every `+` (not only a leading one); the `+1`-stripped form is
emitted whenever the stripped form starts with `+1`, with no length-12
condition; and the `+1`-prefixed and `+`-prefixed forms are gated on the
stripped form not starting with `+` (rather than containing no `+`). -/
theorem c4_amended (raw : List Char) :
    (normalizePhoneNumber raw).Nodup ∧
    ∀ x, x ∈ normalizePhoneNumber raw ↔ x ∈ phoneFormsEmitted raw := by
  have heq : normalizePhoneNumber raw = dedupFirst (phoneFormsEmitted raw) := by
    rw [normalizePhoneNumber, phoneFormsEmitted]
    by_cases h2 : ['+', '1'].isPrefixOf (stripPhone raw) = true <;>
      by_cases hp : ['+'].isPrefixOf (stripPhone raw) = false <;>
        by_cases h10 : (stripPhone raw).length = 10 <;>
          by_cases h0 : 0 < (stripPhone raw).length <;>
            simp [h2, hp, h10, h0]
  rw [heq]
  exact ⟨nodup_dedupFirst _, fun x => mem_dedupFirst _ x⟩

/-! ## DirectoryCache model and `cacheContactSearchResult` (contacts.ts,
lines 693-714), claim C1 -/

/-- The cache/external interactions performed by the contact functions, in
order of occurrence.  `cacheRead`/`cacheWrite` are `ContactCache` accesses;
`liveness` is the `checkContactsAccess` AppleScript probe; `fetchAll` is the
full-directory JXA fetch; `fetchFallback` is the AppleScript full fetch used
as its fallback; `targetedQuery` is the single-record JXA phone search. -/
inductive CEvent
  | cacheRead
  | cacheWrite
  | liveness
  | fetchAll
  | fetchFallback
  | targetedQuery (formats : List (List Char))
deriving DecidableEq

/-- Embedding of `existingData[name] = contactInfo` on a JS object: replace
in place if the key is present, else append. -/
def jsRecordSet (m : ContactsData) (k : List Char) (v : ContactInfo) : ContactsData :=
  if m.any (fun p => p.1 = k) then m.map (fun p => if p.1 = k then (k, v) else p)
  else m ++ [(k, v)]

/-- Embedding of `cacheContactSearchResult` (contacts.ts, lines 693-714) on
the cache state for the key `allContacts`: read the entry; when absent start
from an empty object; add or replace the record; write the object back. -/
def cacheContactSearchResult (cache : Option ContactsData) (c : ContactInfo) :
    Option ContactsData :=
  match cache with
  | none => some (jsRecordSet [] c.name c)
  | some d => some (jsRecordSet d c.name c)

/-- The `"John Doe"` record of the spec's section 8 scenario. -/
def johnContact : ContactInfo :=
  ⟨"John Doe".toList, ["+15551234567".toList], ["john@x.com".toList], []⟩

/-- The one-contact snapshot of the spec's section 8 scenario. -/
def johnSnapshot : ContactsData := [("John Doe".toList, johnContact)]

/-- C1 counterexample: the claim says the write-back after a successful
targeted phone lookup leaves an absent cache entry absent.  In the code the
absent branch builds a fresh object holding only that record and stores it,
so the cache becomes a one-record snapshot. -/
theorem c1_counterexample :
    cacheContactSearchResult none johnContact = some [(johnContact.name, johnContact)] ∧
    cacheContactSearchResult none johnContact ≠ none := by
  constructor
  · decide
  · decide

/-- C1 (amended): for every contact record, the write-back into an absent
cache entry creates a new cache entry whose snapshot contains exactly that
record under its name; it does not leave the cache absent. -/
theorem c1_amended (c : ContactInfo) :
    cacheContactSearchResult none c = some [(c.name, c)] := by
  simp [cacheContactSearchResult, jsRecordSet]

/-! ## Phone lookup (contacts.ts, lines 464-617), claim C3 -/

/-- The phone-equivalence test of the cached and direct searches: the
stripped candidate `num` matches a search format `s` when they are equal or
differ by a `+` or `+1` prefix on either side. -/
def phoneMatches (num s : List Char) : Bool :=
  num = s || num = '+' :: s || num = '+' :: '1' :: s || '+' :: '1' :: num = s

/-- Embedding of `findContactByPhoneCachedSearch` (contacts.ts, lines
580-617): scan only the cached snapshot, returning the first entry one of
whose stripped phone numbers matches one of the search formats; `none` when
the cache is absent or nothing matches. -/
def findContactByPhoneCachedSearch (searchNumbers : List (List Char))
    (cache : Option ContactsData) : Option (List Char) :=
  match cache with
  | none => none
  | some allContacts =>
    (allContacts.find? (fun p =>
      searchNumbers.any (fun s =>
        (p.2.phones.map stripPhone).any (fun num => phoneMatches num s)))).map
      (fun p => p.1)

/-- Embedding of `findContactByPhoneOptimized` (contacts.ts, lines 464-574).
`livenessOk` is the outcome of the `checkContactsAccess` probe (`false`
meaning it threw), `targeted` the outcome of the direct JXA phone search
(`Except.error` meaning the script threw).  Returns the settled value of the
promise (the function catches every exception and resolves with `null`),
the events performed in order, and the final cache state. -/
def findContactByPhoneOptimized (phoneNumber : List Char) (cache : Option ContactsData)
    (livenessOk : Bool) (targeted : Except Unit (Option ContactInfo)) :
    Except String (Option (List Char)) × List CEvent × Option ContactsData :=
  match validatePhoneNumber phoneNumber with
  | Except.error _ => (Except.ok none, [], cache)
  | Except.ok p =>
    if livenessOk = false then (Except.ok none, [CEvent.liveness], cache)
    else
      let searchNumbers := normalizePhoneNumber p
      match findContactByPhoneCachedSearch searchNumbers cache with
      | some nm => (Except.ok (some nm), [CEvent.liveness, CEvent.cacheRead], cache)
      | none =>
        match targeted with
        | Except.error _ =>
          (Except.ok none,
            [CEvent.liveness, CEvent.cacheRead, CEvent.targetedQuery searchNumbers], cache)
        | Except.ok none =>
          (Except.ok none,
            [CEvent.liveness, CEvent.cacheRead, CEvent.targetedQuery searchNumbers], cache)
        | Except.ok (some c) =>
          if c.name = [] then
            (Except.ok none,
              [CEvent.liveness, CEvent.cacheRead, CEvent.targetedQuery searchNumbers], cache)
          else
            (Except.ok (some c.name),
              [CEvent.liveness, CEvent.cacheRead, CEvent.targetedQuery searchNumbers,
                CEvent.cacheRead, CEvent.cacheWrite],
              cacheContactSearchResult cache c)

/-- Events that talk to the external world (the AppleScript probe, the two
full-directory fetches and the targeted query), as opposed to cache access. -/
def isExternalEvent : CEvent → Bool
  | CEvent.liveness => true
  | CEvent.fetchAll => true
  | CEvent.fetchFallback => true
  | CEvent.targetedQuery _ => true
  | _ => false

/-- Full-directory fetch events. -/
def isFullFetchEvent : CEvent → Bool
  | CEvent.fetchAll => true
  | CEvent.fetchFallback => true
  | _ => false

/-- Targeted-query events. -/
def isTargetedEvent : CEvent → Bool
  | CEvent.targetedQuery _ => true
  | _ => false

/-- C3 counterexample: the claim says a phone lookup that hits the cached
snapshot returns the contact "without any external call".  With the John Doe
snapshot cached, looking up `"555-123-4567"` is answered from the cache, yet
the event trace contains an external event: the `checkContactsAccess`
AppleScript probe runs before the cache scan. -/
theorem c3_counterexample :
    (findContactByPhoneOptimized "555-123-4567".toList (some johnSnapshot) true
        (Except.ok none)).1 = Except.ok (some "John Doe".toList) ∧
    ((findContactByPhoneOptimized "555-123-4567".toList (some johnSnapshot) true
        (Except.ok none)).2.1).filter isExternalEvent ≠ [] := by
  constructor
  · decide
  · decide

/-- C3 (amended): for every phone query that passes validation (and with the
access probe succeeding), the lookup follows the two-tier state machine on
directory queries: it never issues a full-directory fetch; on a cached-scan
hit it returns that contact with no targeted query and an unchanged cache;
only on a cache miss does it issue exactly one targeted external query,
upserting the found record and returning its name on success (when the name
is nonempty) and returning none on failure, with no retries.  (The original
claim's "without any external call" on a hit is too strong: an
access-liveness probe always precedes the cache scan.) -/
theorem c3_amended (p p' : List Char) (cache : Option ContactsData)
    (targ : Except Unit (Option ContactInfo))
    (hv : validatePhoneNumber p = Except.ok p') :
    (∀ e ∈ (findContactByPhoneOptimized p cache true targ).2.1, isFullFetchEvent e = false) ∧
    (∀ nm, findContactByPhoneCachedSearch (normalizePhoneNumber p') cache = some nm →
      (findContactByPhoneOptimized p cache true targ).1 = Except.ok (some nm) ∧
      ((findContactByPhoneOptimized p cache true targ).2.1).filter isTargetedEvent = [] ∧
      (findContactByPhoneOptimized p cache true targ).2.2 = cache) ∧
    (findContactByPhoneCachedSearch (normalizePhoneNumber p') cache = none →
      ((findContactByPhoneOptimized p cache true targ).2.1).filter isTargetedEvent =
        [CEvent.targetedQuery (normalizePhoneNumber p')] ∧
      (∀ c, targ = Except.ok (some c) → c.name ≠ [] →
        (findContactByPhoneOptimized p cache true targ).1 = Except.ok (some c.name) ∧
        (findContactByPhoneOptimized p cache true targ).2.2 =
          cacheContactSearchResult cache c) ∧
      ((targ = Except.error () ∨ targ = Except.ok none) →
        (findContactByPhoneOptimized p cache true targ).1 = Except.ok none ∧
        (findContactByPhoneOptimized p cache true targ).2.2 = cache)) := by
  rcases hcs : findContactByPhoneCachedSearch (normalizePhoneNumber p') cache with _ | nm
  · rcases targ with e | co
    · cases e
      simp [findContactByPhoneOptimized, hv, hcs, isFullFetchEvent, isTargetedEvent]
    · rcases co with _ | c
      · simp [findContactByPhoneOptimized, hv, hcs, isFullFetchEvent, isTargetedEvent]
      · by_cases hn : c.name = []
        · simp [findContactByPhoneOptimized, hv, hcs, hn, isFullFetchEvent, isTargetedEvent]
        · simp [findContactByPhoneOptimized, hv, hcs, hn, isFullFetchEvent, isTargetedEvent]
  · simp [findContactByPhoneOptimized, hv, hcs, isFullFetchEvent, isTargetedEvent]

/-- Concrete instance of `c3_amended`: with the John Doe snapshot cached,
`"555-123-4567"` is answered from the cache and no targeted query is made. -/
theorem c3_witness :
    (findContactByPhoneOptimized "555-123-4567".toList (some johnSnapshot) true
        (Except.ok none)).2.2 = some johnSnapshot ∧
    ((findContactByPhoneOptimized "555-123-4567".toList (some johnSnapshot) true
        (Except.ok none)).2.1).filter isTargetedEvent = [] := by
  have h := c3_amended "555-123-4567".toList "555-123-4567".toList (some johnSnapshot)
    (Except.ok none) (by decide)
  have hcs : findContactByPhoneCachedSearch (normalizePhoneNumber "555-123-4567".toList)
      (some johnSnapshot) = some "John Doe".toList := by decide
  obtain ⟨-, h2, -⟩ := h
  obtain ⟨-, hb, hc⟩ := h2 _ hcs
  exact ⟨hc, hb⟩

/-! ## `getAllContacts` (contacts.ts, lines 143-241) and the search
operations built on it (claims C7, C8, C10) -/

/-- Oracle for the external world of `getAllContacts`: the outcome of the
`checkContactsAccess` probe (`false` = it threw), of the JXA full fetch and
of the AppleScript fallback fetch (`Except.error` = the script threw). -/
structure GOracle where
  livenessOk : Bool
  jxa : Except Unit ContactsData
  fallback : Except Unit ContactsData
deriving DecidableEq

/-- Tail of `getAllContacts` after a full fetch produced `d`: cache the
result when it is nonempty, and return it. -/
def finishFullFetch (d : ContactsData) (cache : Option ContactsData) (evs : List CEvent) :
    Except String ContactsData × List CEvent × Option ContactsData :=
  if d = [] then (Except.ok d, evs, cache)
  else (Except.ok d, evs ++ [CEvent.cacheWrite], some d)

/-- Embedding of a single sequential run of `getAllContacts` (contacts.ts,
lines 143-241): cache hit returns the snapshot at once; otherwise the access
probe runs, then the JXA fetch; an empty or failed JXA fetch falls back to
the AppleScript fetch (an empty-JXA fallback that throws is retried once by
the surrounding catch, hence two `fetchFallback` events in that branch);
errors surface as `Error accessing contacts`. -/
def getAllContactsSeq (cache : Option ContactsData) (o : GOracle) :
    Except String ContactsData × List CEvent × Option ContactsData :=
  match cache with
  | some d => (Except.ok d, [CEvent.cacheRead], some d)
  | none =>
    if o.livenessOk = false then
      (Except.error "Error accessing contacts", [CEvent.cacheRead, CEvent.liveness], none)
    else
      match o.jxa with
      | Except.ok d =>
        if d = [] then
          match o.fallback with
          | Except.ok d2 =>
            finishFullFetch d2 none
              [CEvent.cacheRead, CEvent.liveness, CEvent.fetchAll, CEvent.fetchFallback]
          | Except.error _ =>
            (Except.error "Error accessing contacts",
              [CEvent.cacheRead, CEvent.liveness, CEvent.fetchAll, CEvent.fetchFallback,
                CEvent.fetchFallback], none)
        else
          finishFullFetch d none [CEvent.cacheRead, CEvent.liveness, CEvent.fetchAll]
      | Except.error _ =>
        match o.fallback with
        | Except.ok d2 =>
          finishFullFetch d2 none
            [CEvent.cacheRead, CEvent.liveness, CEvent.fetchAll, CEvent.fetchFallback]
        | Except.error _ =>
          (Except.error "Error accessing contacts",
            [CEvent.cacheRead, CEvent.liveness, CEvent.fetchAll, CEvent.fetchFallback], none)

/-- The kind of field a fuzzy search result matched on. -/
inductive MatchType
  | name
  | email
  | phone
deriving DecidableEq

/-- A fuzzy search result (contacts.ts, lines 19-24). -/
structure FuzzyResult where
  contact : ContactInfo
  score : ℚ
  matchType : MatchType
  matchValue : List Char
deriving DecidableEq

/-- The per-contact result accumulation of `fuzzySearchContacts` (contacts.ts,
lines 305-342): a name result above threshold 0.3, then one per email above
0.3 (weighted by 0.9), then one per phone above 0.5 (weighted by 0.8). -/
def contactResults (term : List Char) (ci : ContactInfo) : List FuzzyResult :=
  (if 3/10 < calculateFuzzyScore term ci.name then
    [⟨ci, calculateFuzzyScore term ci.name, MatchType.name, ci.name⟩]
  else []) ++
  ((ci.emails.map (fun e =>
    if 3/10 < calculateFuzzyScore term e then
      [⟨ci, calculateFuzzyScore term e * (9/10), MatchType.email, e⟩]
    else [])).flatten) ++
  ((ci.phones.map (fun ph =>
    if 5/10 < calculateFuzzyScore term ph then
      [⟨ci, calculateFuzzyScore term ph * (8/10), MatchType.phone, ph⟩]
    else [])).flatten)

/-- All raw results over the snapshot, in `Object.entries` order. -/
def allResults (term : List Char) (contacts : ContactsData) : List FuzzyResult :=
  (contacts.map (fun p => contactResults term p.2)).flatten

/-- One step of the `uniqueResults` map of `fuzzySearchContacts` (lines
345-351): keyed by contact name, overwrite only on a strictly higher score,
keeping the key's first-insertion position. -/
def upsertBest (r : FuzzyResult) : List FuzzyResult → List FuzzyResult
  | [] => [r]
  | x :: xs =>
    if x.contact.name = r.contact.name then (if x.score < r.score then r else x) :: xs
    else x :: upsertBest r xs

/-- Fold of `upsertBest` over the raw results (the `Map` build loop). -/
def dedupBestAux : List FuzzyResult → List FuzzyResult → List FuzzyResult
  | acc, [] => acc
  | acc, r :: rs => dedupBestAux (upsertBest r acc) rs

/-- Per-contact best-score deduplication, preserving first-seen order. -/
def dedupBest (l : List FuzzyResult) : List FuzzyResult := dedupBestAux [] l

/-- Stable descending insertion by score (placing a new element before the
first existing element that does not beat it). -/
def insertScoreDesc (r : FuzzyResult) : List FuzzyResult → List FuzzyResult
  | [] => [r]
  | x :: xs => if r.score < x.score then x :: insertScoreDesc r xs else r :: x :: xs

/-- Embedding of the stable JS `sort((a, b) => b.score - a.score)`. -/
def sortScoreDesc : List FuzzyResult → List FuzzyResult
  | [] => []
  | x :: xs => insertScoreDesc x (sortScoreDesc xs)

/-- Embedding of `fuzzySearchContacts` (contacts.ts, lines 297-363),
instrumented with the events performed and the final cache state.  The whole
body runs inside a `try`/`catch` that resolves with `[]`, so validation
failures and `getAllContacts` failures both yield `Except.ok []`. -/
def fuzzySearchInstr (searchTerm : List Char) (maxResults : Nat)
    (cache : Option ContactsData) (o : GOracle) :
    Except String (List FuzzyResult) × List CEvent × Option ContactsData :=
  match validateContactName searchTerm with
  | Except.error _ => (Except.ok [], [], cache)
  | Except.ok term =>
    match getAllContactsSeq cache o with
    | (Except.error _, evs, cache') => (Except.ok [], evs, cache')
    | (Except.ok allContacts, evs, cache') =>
      (Except.ok ((sortScoreDesc (dedupBest (allResults term allContacts))).take maxResults),
        evs, cache')

/-- Embedding of `findContactByEmail` (contacts.ts, lines 385-408),
instrumented with events and cache state: validation errors and
`getAllContacts` errors are rethrown with the `Error finding contact by
email:` prefix; otherwise the snapshot is filtered by case-insensitive
substring containment over the emails. -/
def findContactByEmailInstr (email : List Char) (cache : Option ContactsData) (o : GOracle) :
    Except String (List ContactInfo) × List CEvent × Option ContactsData :=
  match validateEmail email with
  | Except.error e => (Except.error ("Error finding contact by email: " ++ e), [], cache)
  | Except.ok q =>
    match getAllContactsSeq cache o with
    | (Except.error e, evs, cache') =>
      (Except.error ("Error finding contact by email: " ++ e), evs, cache')
    | (Except.ok allContacts, evs, cache') =>
      (Except.ok ((allContacts.map Prod.snd).filter
          (fun ci => ci.emails.any (fun ce => containsSub (lowerStr ce) (lowerStr q)))),
        evs, cache')

/-- C7 counterexample: the claim's scenario says `findByEmail("x.com")` on
the John Doe snapshot returns `["John Doe"]`, but `validateEmail` rejects
`"x.com"` (the regex requires an `@`), so the call rejects with a format
error instead of returning the contact. -/
theorem c7_counterexample :
    (findContactByEmailInstr "x.com".toList (some johnSnapshot)
        ⟨true, Except.ok [], Except.ok []⟩).1 =
      Except.error "Error finding contact by email: Email address format is invalid" ∧
    (findContactByEmailInstr "x.com".toList (some johnSnapshot)
        ⟨true, Except.ok [], Except.ok []⟩).1 ≠ Except.ok [johnContact] := by
  constructor
  · decide
  · decide

/-- C7 (amended): for every email query that passes `validateEmail` and every
cached snapshot (with well-formed unique keys), the email lookup reads only
the cache and returns exactly the contacts having at least one email that
contains the query as a case-insensitive substring, each contact at most
once.  (The claim's `"x.com"` example does not pass validation; a full
address such as `"john@x.com"` does.) -/
theorem c7_amended (q q' : List Char) (snap : ContactsData) (o : GOracle)
    (hv : validateEmail q = Except.ok q')
    (hkeys : (snap.map Prod.fst).Nodup)
    (hname : ∀ pr ∈ snap, (Prod.snd pr).name = Prod.fst pr) :
    ∃ l, findContactByEmailInstr q (some snap) o = (Except.ok l, [CEvent.cacheRead], some snap) ∧
      (∀ c, c ∈ l ↔ c ∈ snap.map Prod.snd ∧ ∃ e ∈ c.emails, subOf (lowerStr q') (lowerStr e)) ∧
      l.Nodup := by
  refine ⟨(snap.map Prod.snd).filter
      (fun ci => ci.emails.any (fun ce => containsSub (lowerStr ce) (lowerStr q'))), ?_, ?_, ?_⟩
  · simp [findContactByEmailInstr, hv, getAllContactsSeq]
  · intro c
    rw [List.mem_filter]
    simp only [List.any_eq_true]
    constructor
    · rintro ⟨h1, e, he, hc⟩
      exact ⟨h1, e, he, (containsSub_eq _ _).mp hc⟩
    · rintro ⟨h1, e, he, hc⟩
      exact ⟨h1, e, he, (containsSub_eq _ _).mpr hc⟩
  · apply List.Nodup.filter
    have hmap : snap.map Prod.fst = (snap.map Prod.snd).map ContactInfo.name := by
      rw [List.map_map]
      exact List.map_congr_left (fun pr hpr => (hname pr hpr).symm)
    exact List.Nodup.of_map _ (hmap ▸ hkeys)

/-- Concrete instance of `c7_amended` at query `"john@x.com"` on the John
Doe snapshot, together with the computed result `[johnContact]`. -/
theorem c7_witness :
    (findContactByEmailInstr "john@x.com".toList (some johnSnapshot)
        ⟨true, Except.ok [], Except.ok []⟩).1 = Except.ok [johnContact] ∧
    ∃ l, findContactByEmailInstr "john@x.com".toList (some johnSnapshot)
          ⟨true, Except.ok [], Except.ok []⟩ =
        (Except.ok l, [CEvent.cacheRead], some johnSnapshot) ∧
      (∀ c, c ∈ l ↔ c ∈ johnSnapshot.map Prod.snd ∧
        ∃ e ∈ c.emails, subOf (lowerStr "john@x.com".toList) (lowerStr e)) ∧
      l.Nodup :=
  ⟨by decide,
    c7_amended "john@x.com".toList "john@x.com".toList johnSnapshot
      ⟨true, Except.ok [], Except.ok []⟩ (by decide) (by decide) (by decide)⟩

/-- C8 counterexample: the claim says every lookup (name, email, phone)
rejects on an empty query.  With an empty query the phone lookup resolves
with `null` and the name search resolves with `[]`: their validation errors
are caught internally, so no rejection reaches the caller. -/
theorem c8_counterexample :
    findContactByPhoneOptimized [] none true (Except.ok none) = (Except.ok none, [], none) ∧
    (fuzzySearchInstr [] 10 none ⟨true, Except.ok [], Except.ok []⟩).1 = Except.ok [] := by
  constructor
  · decide
  · decide

/-- C8 (amended): invalid input (an empty query, or a phone query with
characters outside the allowed set) is detected by validation with a
descriptive message before any cache read or external interaction — the
event trace is empty — but only the email lookup propagates the rejection;
the name search resolves with an empty list and the phone lookup resolves
with `null`, their validation errors being caught internally. -/
theorem c8_amended (cache : Option ContactsData) (o : GOracle) (n : Nat) (b : Bool)
    (targ : Except Unit (Option ContactInfo)) :
    validateContactName [] = Except.error "Contact name cannot be empty" ∧
    validatePhoneNumber [] = Except.error "Phone number cannot be empty" ∧
    validatePhoneNumber "abc".toList = Except.error "Phone number contains invalid characters" ∧
    fuzzySearchInstr [] n cache o = (Except.ok [], [], cache) ∧
    findContactByEmailInstr [] cache o =
      (Except.error "Error finding contact by email: Email address cannot be empty",
        [], cache) ∧
    findContactByPhoneOptimized [] cache b targ = (Except.ok none, [], cache) ∧
    findContactByPhoneOptimized "abc".toList cache b targ = (Except.ok none, [], cache) := by
  exact ⟨rfl, rfl, rfl, rfl, rfl, rfl, rfl⟩

/-- C10 (confirmed): the aggregate fuzzy search always resolves (it never
rejects, for any query, cache state and external behaviour), and any
validation failure or full-fetch failure is converted into an empty result
list. -/
theorem c10_confirmed (term : List Char) (n : Nat) (cache : Option ContactsData) (o : GOracle) :
    (∃ l, (fuzzySearchInstr term n cache o).1 = Except.ok l) ∧
    (((∃ e, validateContactName term = Except.error e) ∨
      (∃ e, (getAllContactsSeq cache o).1 = Except.error e)) →
      (fuzzySearchInstr term n cache o).1 = Except.ok []) := by
  constructor
  · rcases hv : validateContactName term with e | t
    · exact ⟨[], by simp [fuzzySearchInstr, hv]⟩
    · rcases hg : getAllContactsSeq cache o with ⟨r, evs, cache'⟩
      rcases r with e | d
      · exact ⟨[], by simp [fuzzySearchInstr, hv, hg]⟩
      · exact ⟨(sortScoreDesc (dedupBest (allResults t d))).take n,
          by simp [fuzzySearchInstr, hv, hg]⟩
  · rintro (⟨e, he⟩ | ⟨e, he⟩)
    · simp [fuzzySearchInstr, he]
    · rcases hv : validateContactName term with e' | t
      · simp [fuzzySearchInstr, hv]
      · rcases hg : getAllContactsSeq cache o with ⟨r, evs, cache'⟩
        rw [hg] at he
        simp only at he
        subst he
        simp [fuzzySearchInstr, hv, hg]

/-- Concrete instance of `c10_confirmed`: an empty (invalid) search term
yields the empty result list. -/
theorem c10_witness :
    (fuzzySearchInstr [] 10 none ⟨true, Except.ok [], Except.ok []⟩).1 = Except.ok [] :=
  (c10_confirmed [] 10 none ⟨true, Except.ok [], Except.ok []⟩).2
    (Or.inl ⟨"Contact name cannot be empty", by decide⟩)

/-! ## Concurrent callers of `getAllContacts` (claim C2) -/

/-- Program counter of one caller of `getAllContacts`, cut at the `await`
suspension points of the function: about to run (cache check), awaiting the
access probe, awaiting the JXA fetch, awaiting the fallback fetch reached
from an empty JXA result (`awaitFbA`, whose failure is retried by the
surrounding catch) or from a JXA failure (`awaitFbB`), or settled. -/
inductive GPc
  | start
  | awaitAccess
  | awaitFetch
  | awaitFbA
  | awaitFbB
  | done (r : Except String ContactsData)
deriving DecidableEq

/-- One synchronous block of `getAllContacts` for a single caller: from its
current suspension point to the next one, reading and writing the shared
cache and emitting the events the block performs (external calls are emitted
when initiated). -/
def gStep (o : GOracle) (pc : GPc) (cache : Option ContactsData) :
    GPc × Option ContactsData × List CEvent :=
  match pc with
  | GPc.start =>
    match cache with
    | some d => (GPc.done (Except.ok d), some d, [CEvent.cacheRead])
    | none => (GPc.awaitAccess, none, [CEvent.cacheRead, CEvent.liveness])
  | GPc.awaitAccess =>
    if o.livenessOk = false then
      (GPc.done (Except.error "Error accessing contacts"), cache, [])
    else (GPc.awaitFetch, cache, [CEvent.fetchAll])
  | GPc.awaitFetch =>
    match o.jxa with
    | Except.ok d =>
      if d = [] then (GPc.awaitFbA, cache, [CEvent.fetchFallback])
      else (GPc.done (Except.ok d), some d, [CEvent.cacheWrite])
    | Except.error _ => (GPc.awaitFbB, cache, [CEvent.fetchFallback])
  | GPc.awaitFbA =>
    match o.fallback with
    | Except.ok d =>
      if d = [] then (GPc.done (Except.ok d), cache, [])
      else (GPc.done (Except.ok d), some d, [CEvent.cacheWrite])
    | Except.error _ => (GPc.awaitFbB, cache, [CEvent.fetchFallback])
  | GPc.awaitFbB =>
    match o.fallback with
    | Except.ok d =>
      if d = [] then (GPc.done (Except.ok d), cache, [])
      else (GPc.done (Except.ok d), some d, [CEvent.cacheWrite])
    | Except.error _ => (GPc.done (Except.error "Error accessing contacts"), cache, [])
  | GPc.done r => (GPc.done r, cache, [])

/-- State of the cooperative system: per-caller program counters, the shared
cache entry for `allContacts`, and the global event trace. -/
structure GSys where
  pcs : List GPc
  cache : Option ContactsData
  trace : List CEvent
deriving DecidableEq

/-- Schedule caller `i` for one synchronous block (a no-op for an index out
of range; a settled caller stays settled). -/
def gSchedStep (o : GOracle) (sys : GSys) (i : Nat) : GSys :=
  match sys.pcs[i]? with
  | none => sys
  | some pc =>
    let s := gStep o pc sys.cache
    ⟨sys.pcs.set i s.1, s.2.1, sys.trace ++ s.2.2⟩

/-- Run a cooperative schedule (a list of caller indices) from a system
state.  Single-threaded: blocks never interleave within themselves. -/
def gRun (o : GOracle) (sched : List Nat) (sys : GSys) : GSys :=
  sched.foldl (gSchedStep o) sys

/-- Full-directory JXA fetch events only. -/
def isFetchAllEvent : CEvent → Bool
  | CEvent.fetchAll => true
  | _ => false

/-- C2 counterexample: the claim says N concurrent callers observing a cold
cache issue exactly one full fetch.  Running two callers round-robin on a
cold cache with a successful external source, both observe the cold cache
before either fetch resolves and the trace holds two `fetchAll` events, not
one: `getAllContacts` tracks no in-flight handle. -/
theorem c2_counterexample :
    (gRun ⟨true, Except.ok johnSnapshot, Except.ok []⟩ [0, 1, 0, 1, 0, 1]
        ⟨[GPc.start, GPc.start], none, []⟩).trace.countP isFetchAllEvent = 2 ∧
    ¬ (gRun ⟨true, Except.ok johnSnapshot, Except.ok []⟩ [0, 1, 0, 1, 0, 1]
        ⟨[GPc.start, GPc.start], none, []⟩).trace.countP isFetchAllEvent = 1 := by
  constructor
  · decide
  · decide

/-- C2 (amended): there is no single-flight coordination.  Two concurrent
callers that both observe the cold cache before either fetch completes each
issue their own full-directory fetch — two `fetchAll` events for two callers
— though each caller still settles with the fetched snapshot and the cache
ends populated with it. -/
theorem c2_amended (d : ContactsData) (hd : d ≠ []) :
    (gRun ⟨true, Except.ok d, Except.ok []⟩ [0, 1, 0, 1, 0, 1]
        ⟨[GPc.start, GPc.start], none, []⟩).trace.countP isFetchAllEvent = 2 ∧
    (gRun ⟨true, Except.ok d, Except.ok []⟩ [0, 1, 0, 1, 0, 1]
        ⟨[GPc.start, GPc.start], none, []⟩).pcs =
      [GPc.done (Except.ok d), GPc.done (Except.ok d)] ∧
    (gRun ⟨true, Except.ok d, Except.ok []⟩ [0, 1, 0, 1, 0, 1]
        ⟨[GPc.start, GPc.start], none, []⟩).cache = some d := by
  cases d with
  | nil => exact absurd rfl hd
  | cons x xs => exact ⟨rfl, rfl, rfl⟩

/-- Concrete instance of `c2_amended` on the John Doe snapshot. -/
theorem c2_witness :
    (gRun ⟨true, Except.ok johnSnapshot, Except.ok []⟩ [0, 1, 0, 1, 0, 1]
        ⟨[GPc.start, GPc.start], none, []⟩).trace.countP isFetchAllEvent = 2 ∧
    (gRun ⟨true, Except.ok johnSnapshot, Except.ok []⟩ [0, 1, 0, 1, 0, 1]
        ⟨[GPc.start, GPc.start], none, []⟩).pcs =
      [GPc.done (Except.ok johnSnapshot), GPc.done (Except.ok johnSnapshot)] ∧
    (gRun ⟨true, Except.ok johnSnapshot, Except.ok []⟩ [0, 1, 0, 1, 0, 1]
        ⟨[GPc.start, GPc.start], none, []⟩).cache = some johnSnapshot :=
  c2_amended johnSnapshot (by decide)

/-- Concrete instance of `c1_amended` at the John Doe record. -/
theorem c1_witness :
    cacheContactSearchResult none johnContact = some [(johnContact.name, johnContact)] :=
  c1_amended johnContact

/-- Concrete instance of `c4_amended` at raw input `"+1234"`, with the
membership equivalence instantiated at the `+1`-stripped form `"234"`. -/
theorem c4_witness :
    (normalizePhoneNumber "+1234".toList).Nodup ∧
    ("234".toList ∈ normalizePhoneNumber "+1234".toList ↔
      "234".toList ∈ phoneFormsEmitted "+1234".toList) :=
  ⟨(c4_amended "+1234".toList).1, (c4_amended "+1234".toList).2 "234".toList⟩

/-- Concrete instance of `c8_amended` on a cold cache with a benign oracle. -/
theorem c8_witness :
    validateContactName [] = Except.error "Contact name cannot be empty" ∧
    validatePhoneNumber [] = Except.error "Phone number cannot be empty" ∧
    validatePhoneNumber "abc".toList = Except.error "Phone number contains invalid characters" ∧
    fuzzySearchInstr [] 10 none ⟨true, Except.ok [], Except.ok []⟩ =
      (Except.ok [], [], none) ∧
    findContactByEmailInstr [] none ⟨true, Except.ok [], Except.ok []⟩ =
      (Except.error "Error finding contact by email: Email address cannot be empty",
        [], none) ∧
    findContactByPhoneOptimized [] none true (Except.ok none) = (Except.ok none, [], none) ∧
    findContactByPhoneOptimized "abc".toList none true (Except.ok none) =
      (Except.ok none, [], none) :=
  c8_amended none ⟨true, Except.ok [], Except.ok []⟩ 10 true (Except.ok none)
